import Mathlib

/-!
Shallow embedding of the Quiz-Stats server (`server.js`): a live-polling and
Q&A application backed by a SQLite store.  Tables become lists of rows, the
generic `meta(key, value)` table becomes an association list, and each HTTP
handler becomes a pure function from the store (plus the already-coerced
request fields) to a result, the new store, and the list of Socket.IO
broadcasts it emits.

JavaScript coercions at the edge of each handler are modelled as follows:
`Number(x)` applied to a request field yields `Option Int` (`none` models NaN,
i.e. a missing or non-numeric field; every id and index in this program is
integral), `String(x || '')` yields a `String`, and `Boolean(x)` yields `Bool`.
-/

namespace Quiz

/-- A row of the `questions` table (id, text, correct_option_id). -/
structure Question where
  id : Int
  text : String
  correct_option_id : Option Int
deriving DecidableEq, Repr

/-- A row of the `options` table (id, question_id, text). -/
structure OptionRow where
  id : Int
  question_id : Int
  text : String
deriving DecidableEq, Repr

/-- A row of the `responses` table (id, question_id, option_id, device_id).
`device_id` is nullable: the bulk `/api/submit` path inserts NULL device ids. -/
structure Response where
  id : Int
  question_id : Int
  option_id : Int
  device_id : Option String
deriving DecidableEq, Repr

/-- A row of the `qna_submissions` table (id, user, text). -/
structure QnaRow where
  id : Int
  user : String
  text : String
deriving DecidableEq, Repr

/-- The SQLite database: one list per table, plus the AUTOINCREMENT cursors
for the two tables whose fresh ids the handlers observe. -/
structure Store where
  questions : List Question
  options : List OptionRow
  responses : List Response
  qna : List QnaRow
  meta : List (String × String)
  nextRespId : Int
  nextQnaId : Int
deriving DecidableEq, Repr

/-- The Socket.IO broadcast catalogue (`io.emit` calls in `server.js`). -/
inductive Event
  | stateChanged
  | statsUpdated
  | qnaSubmitted
  | qnaHighlighted (id : Int)
  | qnaRejected (id : Int)
deriving DecidableEq, Repr

/-- `SELECT value FROM meta WHERE key = ?` (line 100). -/
def getMeta (m : List (String × String)) (k : String) : Option String :=
  (m.find? (fun p => p.1 == k)).map (fun p => p.2)

/-- `INSERT INTO meta (key, value) VALUES (?, ?) ON CONFLICT(key) DO UPDATE
SET value = excluded.value` (line 101): update the existing row or append. -/
def setMeta : List (String × String) → String → String → List (String × String)
  | [], k, v => [(k, v)]
  | p :: rest, k, v => if p.1 == k then (k, v) :: rest else p :: setMeta rest k v

/-- JavaScript falsiness of a coerced number: `!x` holds for NaN and 0. -/
def numFalsy : Option Int → Bool
  | none => true
  | some n => n == 0

/-- `v?.value || d`: the default is used when the row is absent or its value
is the empty string (which is falsy in JavaScript). -/
def jsOr (v : Option String) (d : String) : String :=
  match v with
  | some x => if x == "" then d else x
  | none => d

/-- A JavaScript whitespace character, as far as `String.prototype.trim` is
concerned for the inputs this server sees. -/
def isWS (c : Char) : Bool := c == ' ' || c == '\t' || c == '\n' || c == '\r'

/-- `str.trim()`: drop whitespace from both ends, written structurally over
the character data so proofs can evaluate it. -/
def jsTrim (s : String) : String :=
  ⟨((s.data.dropWhile isWS).reverse.dropWhile isWS).reverse⟩

/-- `Number(str)` on the canonical decimal integer strings this program
writes into `meta` (the representations produced by `String(n)`), written
structurally over the character data so proofs can evaluate it. -/
def parseIntD (str : String) : Int :=
  match str.data with
  | '-' :: ds => - Int.ofNat (ds.foldl (fun n c => n * 10 + (c.toNat - 48)) 0)
  | ds => Int.ofNat (ds.foldl (fun n c => n * 10 + (c.toNat - 48)) 0)

/-- `SELECT id FROM responses WHERE device_id = ? AND question_id = ?`
(line 188), reduced to its truth value: a NULL `device_id` never matches. -/
def hasVote (s : Store) (dev : String) (qid : Int) : Bool :=
  s.responses.any (fun r => r.device_id == some dev && r.question_id == qid)

/-- Storage-level insert into `responses`, enforcing the unique index
`idx_responses_device_question` on `(device_id, question_id)` (line 89).
SQLite raises a constraint error iff a row with the same non-NULL device id
and question id already exists; NULL device ids compare distinct, so the
bulk path may insert many NULL-device rows for one question. -/
def insertResponse (s : Store) (qid oid : Int) (dev : Option String) :
    Except Unit Store :=
  if (match dev with
      | some d => hasVote s d qid
      | none => false) then
    Except.error ()
  else
    Except.ok { s with
      responses := s.responses ++ [⟨s.nextRespId, qid, oid, dev⟩],
      nextRespId := s.nextRespId + 1 }

inductive VoteResult
  | invalid
  | alreadyVoted
  | ok
  | serverError
deriving DecidableEq, Repr

/-- The insert phase of the `/api/vote` handler (line 192): the prepared
INSERT runs with no surrounding try/catch, so a constraint error thrown by
the unique index propagates to the framework default handler and surfaces as
a generic server error (500), while a successful insert answers `ok` and
broadcasts `statsUpdated` (lines 193 to 194). -/
def voteInsert (s : Store) (qid oid : Int) (dev : String) :
    VoteResult × Store × List Event :=
  match insertResponse s qid oid (some dev) with
  | .error _ => (.serverError, s, [])
  | .ok s2 => (.ok, s2, [.statsUpdated])

/-- `POST /api/vote` (lines 183 to 195): coerce the three fields, answer 400
when any is falsy, answer 409 `ALREADY_VOTED` when a `(device, question)` row
exists, and otherwise insert and broadcast. -/
def submitVote (s : Store) (questionId optionId : Option Int)
    (deviceIdRaw : String) : VoteResult × Store × List Event :=
  let deviceId := jsTrim deviceIdRaw
  match questionId, optionId with
  | some qid, some oid =>
    if qid == 0 || oid == 0 || deviceId == "" then (.invalid, s, [])
    else if hasVote s deviceId qid then (.alreadyVoted, s, [])
    else voteInsert s qid oid deviceId
  | _, _ => (.invalid, s, [])

inductive ResetResult
  | invalid
  | ok (removed : Nat)
deriving DecidableEq, Repr

/-- `POST /api/vote/reset` (lines 197 to 204): `DELETE FROM responses WHERE
device_id = ? AND question_id = ?`, report `info.changes` as `removed`, and
broadcast only when `info.changes > 0`. -/
def resetVote (s : Store) (questionId : Option Int) (deviceIdRaw : String) :
    ResetResult × Store × List Event :=
  let deviceId := jsTrim deviceIdRaw
  match questionId with
  | some qid =>
    if qid == 0 || deviceId == "" then (.invalid, s, [])
    else
      let hit := fun r : Response =>
        r.device_id == some deviceId && r.question_id == qid
      let removed := s.responses.countP hit
      (.ok removed,
       { s with responses := s.responses.filter (fun r => !hit r) },
       if removed > 0 then [.statsUpdated] else [])
  | none => (.invalid, s, [])

/-- One element of the `answers` array posted to `/api/submit`; `none` models
a missing (or otherwise falsy non-numeric) field. -/
structure AnswerRow where
  questionId : Option Int
  optionId : Option Int
deriving DecidableEq, Repr

inductive SubmitResult
  | noAnswers
  | ok
deriving DecidableEq, Repr

/-- One iteration of the transaction body of `/api/submit` (lines 172 to
175): skip the row when either id is falsy, otherwise insert it with a NULL
device id. -/
def insertAnswer (s : Store) (a : AnswerRow) : Store :=
  if numFalsy a.questionId || numFalsy a.optionId then s
  else { s with
    responses := s.responses ++ [⟨s.nextRespId, a.questionId.getD 0, a.optionId.getD 0, none⟩],
    nextRespId := s.nextRespId + 1 }

/-- `POST /api/submit` (lines 165 to 180): 400 on an empty batch; otherwise
run the whole batch in one transaction and broadcast `statsUpdated` once. -/
def bulkSubmit (s : Store) (answers : List AnswerRow) :
    SubmitResult × Store × List Event :=
  if answers.isEmpty then (.noAnswers, s, [])
  else (.ok, answers.foldl insertAnswer s, [.statsUpdated])

/-- One element of a stats payload option list. -/
structure OptStat where
  id : Int
  text : String
  count : Nat
deriving DecidableEq, Repr

/-- One element of the stats payload (line 221). -/
structure QStat where
  id : Int
  text : String
  total : Nat
  options : List OptStat
  correctOptionId : Option Int
deriving DecidableEq, Repr

/-- `SELECT COUNT(1) FROM responses WHERE option_id = ?` (line 213). -/
def countOpt (s : Store) (oid : Int) : Nat :=
  s.responses.countP (fun r => r.option_id == oid)

/-- The per-question body of the `/api/stats` map (lines 214 to 222): load
the question options, attach each count, and total them with a fold. -/
def statEntry (s : Store) (q : Question) : QStat :=
  let opts := (s.options.filter (fun o => o.question_id == q.id)).map
    (fun o => { id := o.id, text := o.text, count := countOpt s o.id : OptStat })
  { id := q.id, text := q.text,
    total := opts.foldl (fun acc o => acc + o.count) 0,
    options := opts,
    correctOptionId := q.correct_option_id }

/-- `GET /api/stats` (lines 207 to 224): all questions, or only the one
matching the `questionId` query parameter. -/
def stats (s : Store) (questionId : Option Int) : List QStat :=
  let qs := match questionId with
    | some qid => s.questions.filter (fun q : Question => q.id == qid)
    | none => s.questions
  qs.map (statEntry s)

/-- `getMeta.get('poll_status')?.value || 'idle'` (line 157). -/
def pollStatus (s : Store) : String := jsOr (getMeta s.meta "poll_status") "idle"

/-- `Number(getMeta.get('active_question_index')?.value || '0')` (lines 158
and 249). -/
def activeIndex (s : Store) : Int :=
  parseIntD (jsOr (getMeta s.meta "active_question_index") "0")

/-- `getMeta.get('reveal_correct')?.value === '1'` (line 160). -/
def revealCorrect (s : Store) : Bool :=
  getMeta s.meta "reveal_correct" == some "1"

/-- `POST /api/admin/start` (lines 238 to 245): delete every response, reset
the index to 0, set the status to running, broadcast `stateChanged`. -/
def start (s : Store) : Store × List Event :=
  let s1 := { s with responses := [] }
  let s2 := { s1 with meta := setMeta s1.meta "active_question_index" "0" }
  let s3 := { s2 with meta := setMeta s2.meta "poll_status" "running" }
  (s3, [.stateChanged])

/-- `Math.min(a, b)` on integral values. -/
def jsMin (a b : Int) : Int := if a ≤ b then a else b

/-- `Math.max(a, b)` on integral values. -/
def jsMax (a b : Int) : Int := if a ≤ b then b else a

/-- `POST /api/admin/next` (lines 247 to 255): clamp the incremented index to
`Math.min(current + 1, Math.max(0, total - 1))`, store it, force the status
back to running, broadcast `stateChanged`, and answer with the new index. -/
def next (s : Store) : Int × Store × List Event :=
  let total : Int := s.questions.length
  let current := activeIndex s
  let nxt := jsMin (current + 1) (jsMax 0 (total - 1))
  let s1 := { s with meta := setMeta s.meta "active_question_index" (toString nxt) }
  let s2 := { s1 with meta := setMeta s1.meta "poll_status" "running" }
  (nxt, s2, [.stateChanged])

/-- `POST /api/admin/end` (lines 257 to 261). -/
def endPoll (s : Store) : Store × List Event :=
  ({ s with meta := setMeta s.meta "poll_status" "ended" }, [.stateChanged])

/-- `POST /api/admin/reveal-correct` (lines 264 to 270); the request flag has
already been through `Boolean(...)`. -/
def setReveal (s : Store) (reveal : Bool) : Store × List Event :=
  ({ s with meta := setMeta s.meta "reveal_correct" (if reveal then "1" else "0") },
   [.stateChanged])

inductive CorrectResult
  | invalid
  | ok
deriving DecidableEq, Repr

/-- `POST /api/admin/correct` (lines 227 to 235): 400 on a falsy question id,
otherwise `UPDATE questions SET correct_option_id = ? WHERE id = ?` (the
option argument is NULL or a number, both modelled by `Option Int`) and
broadcast `statsUpdated`. -/
def setCorrectOption (s : Store) (questionId optionId : Option Int) :
    CorrectResult × Store × List Event :=
  if numFalsy questionId then (.invalid, s, [])
  else
    (.ok,
     { s with questions := s.questions.map (fun q =>
         if q.id == questionId.getD 0 then { q with correct_option_id := optionId } else q) },
     [.statsUpdated])

inductive QnaSubmitResult
  | invalid
  | ok (id : Int)
deriving DecidableEq, Repr

/-- `POST /api/qna/submit` (lines 273 to 280): trim the text, default and
trim the user label (falling back to Anonymous again when trimming empties
it), 400 on empty text, otherwise insert and broadcast `qnaSubmitted`. -/
def qnaSubmit (s : Store) (textRaw userRaw : Option String) :
    QnaSubmitResult × Store × List Event :=
  let text := jsTrim (jsOr textRaw "")
  let user0 := jsTrim (jsOr userRaw "Anonymous")
  let user := if user0 == "" then "Anonymous" else user0
  if text == "" then (.invalid, s, [])
  else
    (.ok s.nextQnaId,
     { s with qna := s.qna ++ [⟨s.nextQnaId, user, text⟩],
              nextQnaId := s.nextQnaId + 1 },
     [.qnaSubmitted])

/-- `GET /api/qna/list` (lines 282 to 285): `ORDER BY id DESC LIMIT 200`. -/
def qnaList (s : Store) : List QnaRow :=
  (s.qna.mergeSort (fun a b => b.id ≤ a.id)).take 200

inductive QnaOpResult
  | invalid
  | ok
deriving DecidableEq, Repr

/-- `POST /api/qna/highlight` (lines 287 to 293): 400 on a falsy id,
otherwise store the highlight pointer in `meta` and broadcast. -/
def qnaHighlight (s : Store) (id : Option Int) : QnaOpResult × Store × List Event :=
  match id with
  | some i =>
    if i == 0 then (.invalid, s, [])
    else
      (.ok, { s with meta := setMeta s.meta "qna_highlight_id" (toString i) },
       [.qnaHighlighted i])
  | none => (.invalid, s, [])

/-- `GET /api/qna/highlight` (lines 295 to 298). -/
def qnaHighlightGet (s : Store) : Int :=
  parseIntD (jsOr (getMeta s.meta "qna_highlight_id") "0")

/-- `POST /api/qna/unhighlight` (lines 312 to 316). -/
def qnaUnhighlight (s : Store) : Store × List Event :=
  ({ s with meta := setMeta s.meta "qna_highlight_id" "0" }, [.qnaHighlighted 0])

/-- `POST /api/qna/reject` (lines 303 to 309): 400 on a falsy id, otherwise
`DELETE FROM qna_submissions WHERE id = ?` and broadcast `qnaRejected`
whether or not a row existed. -/
def qnaReject (s : Store) (id : Option Int) : QnaOpResult × Store × List Event :=
  match id with
  | some i =>
    if i == 0 then (.invalid, s, [])
    else
      (.ok, { s with qna := s.qna.filter (fun r => !(r.id == i)) },
       [.qnaRejected i])
  | none => (.invalid, s, [])

/-- The `questions` rows written by the version-4 seed transaction (lines 103
to 136); AUTOINCREMENT assigns ids 1 to 4 on the freshly cleared table. -/
def seedQuestions : List Question :=
  [⟨1, "When was Alef launched?", none⟩,
   ⟨2, "How many units are there approximately in Al Mamsha?", none⟩,
   ⟨3, "What was Alef\x27s first project?", none⟩,
   ⟨4, "How large is the swimmable area in Hayyan?", none⟩]

/-- The `options` rows written by the version-4 seed, ids 1 to 12 in
insertion order. -/
def seedOptions : List OptionRow :=
  [⟨1, 1, "2012"⟩, ⟨2, 1, "2013"⟩, ⟨3, 1, "2014"⟩,
   ⟨4, 2, "1500"⟩, ⟨5, 2, "5000"⟩, ⟨6, 2, "10000"⟩,
   ⟨7, 3, "Al Mamsha"⟩, ⟨8, 3, "06 Mall"⟩, ⟨9, 3, "Olfah"⟩,
   ⟨10, 4, "30,000 sq.ft"⟩, ⟨11, 4, "55,000 sq.ft"⟩, ⟨12, 4, "80,000 sq.ft"⟩]

/-- The store right after startup on a fresh database: the version-4 seed has
run (lines 103 to 136) and the poll-state defaults have been written (lines
139 to 141). -/
def init : Store :=
  { questions := seedQuestions
    options := seedOptions
    responses := []
    qna := []
    meta := [("seed_version", "4"), ("poll_status", "idle"),
             ("active_question_index", "0"), ("reveal_correct", "0")]
    nextRespId := 1
    nextQnaId := 1 }

/-- The stores reachable from startup through the request handlers modelled
above (every handler of `server.js` that writes the store). -/
inductive Reachable : Store → Prop
  | base : Reachable init
  | vote (s) (qj oj : Option Int) (d : String) :
      Reachable s → Reachable (submitVote s qj oj d).2.1
  | reset (s) (qj : Option Int) (d : String) :
      Reachable s → Reachable (resetVote s qj d).2.1
  | bulk (s) (answers : List AnswerRow) :
      Reachable s → Reachable (bulkSubmit s answers).2.1
  | startStep (s) : Reachable s → Reachable (start s).1
  | nextStep (s) : Reachable s → Reachable (next s).2.1
  | endStep (s) : Reachable s → Reachable (endPoll s).1
  | revealStep (s) (b : Bool) : Reachable s → Reachable (setReveal s b).1
  | correctStep (s) (qj oj : Option Int) :
      Reachable s → Reachable (setCorrectOption s qj oj).2.1
  | qnaSubmitStep (s) (t u : Option String) :
      Reachable s → Reachable (qnaSubmit s t u).2.1
  | qnaHighlightStep (s) (i : Option Int) :
      Reachable s → Reachable (qnaHighlight s i).2.1
  | qnaUnhighlightStep (s) : Reachable s → Reachable (qnaUnhighlight s).1
  | qnaRejectStep (s) (i : Option Int) :
      Reachable s → Reachable (qnaReject s i).2.1

/-- The poll fields an admin or viewer observes: status, active index,
reveal flag. -/
def pollView (s : Store) : String × Int × Bool :=
  (pollStatus s, activeIndex s, revealCorrect s)

theorem getMeta_setMeta_same (m : List (String × String)) (k v : String) :
    getMeta (setMeta m k v) k = some v := by
  induction m with
  | nil => simp [getMeta, setMeta]
  | cons p rest ih =>
    simp only [setMeta]
    split
    · simp [getMeta, List.find?]
    · rename_i h
      simpa [getMeta, List.find?, h] using ih

theorem getMeta_setMeta_ne (m : List (String × String)) (k k' v : String)
    (h : k' ≠ k) : getMeta (setMeta m k v) k' = getMeta m k' := by
  have hk : (k == k') = false := by
    simp only [beq_eq_false_iff_ne, ne_eq]
    exact Ne.symm h
  induction m with
  | nil => simp [getMeta, setMeta, hk]
  | cons p rest ih =>
    simp only [setMeta]
    split
    · rename_i hp
      have hp' : p.1 = k := by simpa using hp
      simp [getMeta, List.find?, hp', hk]
    · by_cases hq : p.1 == k'
      · simp [getMeta, List.find?, hq]
      · simpa [getMeta, List.find?, hq] using ih

theorem jsMin_eq_min (a b : Int) : jsMin a b = min a b := by
  simp [jsMin, min_def]

theorem jsMax_eq_max (a b : Int) : jsMax a b = max a b := by
  simp [jsMax, max_def]

theorem pollView_eq_of_meta_eq {s t : Store} (h : t.meta = s.meta) :
    pollView t = pollView s := by
  simp [pollView, pollStatus, activeIndex, revealCorrect, h]

theorem submitVote_meta (s : Store) (qj oj : Option Int) (d : String) :
    (submitVote s qj oj d).2.1.meta = s.meta := by
  unfold submitVote voteInsert insertResponse
  rcases qj with _ | qid <;> rcases oj with _ | oid <;> simp only
  split_ifs <;> simp

theorem submitVote_questions (s : Store) (qj oj : Option Int) (d : String) :
    (submitVote s qj oj d).2.1.questions = s.questions := by
  unfold submitVote voteInsert insertResponse
  rcases qj with _ | qid <;> rcases oj with _ | oid <;> simp only
  split_ifs <;> simp

theorem resetVote_meta (s : Store) (qj : Option Int) (d : String) :
    (resetVote s qj d).2.1.meta = s.meta := by
  unfold resetVote
  rcases qj with _ | qid <;> simp only
  split_ifs <;> simp

theorem resetVote_questions (s : Store) (qj : Option Int) (d : String) :
    (resetVote s qj d).2.1.questions = s.questions := by
  unfold resetVote
  rcases qj with _ | qid <;> simp only
  split_ifs <;> simp

theorem insertAnswer_meta (s : Store) (a : AnswerRow) :
    (insertAnswer s a).meta = s.meta := by
  unfold insertAnswer; split_ifs <;> simp

theorem insertAnswer_questions (s : Store) (a : AnswerRow) :
    (insertAnswer s a).questions = s.questions := by
  unfold insertAnswer; split_ifs <;> simp

theorem foldl_insertAnswer_meta (answers : List AnswerRow) (s : Store) :
    (answers.foldl insertAnswer s).meta = s.meta := by
  induction answers generalizing s with
  | nil => simp
  | cons a rest ih => simpa [insertAnswer_meta] using ih (insertAnswer s a)

theorem foldl_insertAnswer_questions (answers : List AnswerRow) (s : Store) :
    (answers.foldl insertAnswer s).questions = s.questions := by
  induction answers generalizing s with
  | nil => simp
  | cons a rest ih => simpa [insertAnswer_questions] using ih (insertAnswer s a)

theorem bulkSubmit_meta (s : Store) (answers : List AnswerRow) :
    (bulkSubmit s answers).2.1.meta = s.meta := by
  unfold bulkSubmit
  split_ifs <;> simp [foldl_insertAnswer_meta]

theorem bulkSubmit_questions (s : Store) (answers : List AnswerRow) :
    (bulkSubmit s answers).2.1.questions = s.questions := by
  unfold bulkSubmit
  split_ifs <;> simp [foldl_insertAnswer_questions]

theorem setCorrectOption_meta (s : Store) (qj oj : Option Int) :
    (setCorrectOption s qj oj).2.1.meta = s.meta := by
  unfold setCorrectOption; split_ifs <;> simp

theorem setCorrectOption_questions_length (s : Store) (qj oj : Option Int) :
    (setCorrectOption s qj oj).2.1.questions.length = s.questions.length := by
  unfold setCorrectOption; split_ifs <;> simp

theorem qnaSubmit_meta (s : Store) (t u : Option String) :
    (qnaSubmit s t u).2.1.meta = s.meta := by
  simp only [qnaSubmit]
  split_ifs <;> simp

theorem qnaSubmit_questions (s : Store) (t u : Option String) :
    (qnaSubmit s t u).2.1.questions = s.questions := by
  simp only [qnaSubmit]
  split_ifs <;> simp

theorem qnaReject_meta (s : Store) (i : Option Int) :
    (qnaReject s i).2.1.meta = s.meta := by
  unfold qnaReject
  rcases i with _ | i <;> simp only
  split_ifs <;> simp

theorem qnaReject_questions (s : Store) (i : Option Int) :
    (qnaReject s i).2.1.questions = s.questions := by
  unfold qnaReject
  rcases i with _ | i <;> simp only
  split_ifs <;> simp

theorem qnaHighlight_pollView (s : Store) (i : Option Int) :
    pollView (qnaHighlight s i).2.1 = pollView s := by
  rcases i with _ | i
  · simp [qnaHighlight]
  · simp only [qnaHighlight]
    split_ifs with h
    · rfl
    · have h1 := getMeta_setMeta_ne s.meta "qna_highlight_id" "poll_status"
        (toString i) (by decide)
      have h2 := getMeta_setMeta_ne s.meta "qna_highlight_id"
        "active_question_index" (toString i) (by decide)
      have h3 := getMeta_setMeta_ne s.meta "qna_highlight_id" "reveal_correct"
        (toString i) (by decide)
      simp [pollView, pollStatus, activeIndex, revealCorrect, h1, h2, h3]

theorem qnaHighlight_questions (s : Store) (i : Option Int) :
    (qnaHighlight s i).2.1.questions = s.questions := by
  rcases i with _ | i
  · simp [qnaHighlight]
  · simp only [qnaHighlight]
    split_ifs <;> simp

theorem qnaUnhighlight_pollView (s : Store) :
    pollView (qnaUnhighlight s).1 = pollView s := by
  have h1 := getMeta_setMeta_ne s.meta "qna_highlight_id" "poll_status"
    "0" (by decide)
  have h2 := getMeta_setMeta_ne s.meta "qna_highlight_id"
    "active_question_index" "0" (by decide)
  have h3 := getMeta_setMeta_ne s.meta "qna_highlight_id" "reveal_correct"
    "0" (by decide)
  simp [qnaUnhighlight, pollView, pollStatus, activeIndex, revealCorrect,
    h1, h2, h3]

theorem qnaUnhighlight_questions (s : Store) :
    (qnaUnhighlight s).1.questions = s.questions := by
  unfold qnaUnhighlight; simp

/-- The poll-state invariant maintained by the running server: the seeded
question set keeps its four questions, the status key holds one of the three
legal states, the index key holds one of the four canonical position strings,
and the reveal key holds a boolean flag string. -/
def PollInv (s : Store) : Prop :=
  s.questions.length = 4 ∧
  (getMeta s.meta "poll_status" = some "idle" ∨
   getMeta s.meta "poll_status" = some "running" ∨
   getMeta s.meta "poll_status" = some "ended") ∧
  (getMeta s.meta "active_question_index" = some "0" ∨
   getMeta s.meta "active_question_index" = some "1" ∨
   getMeta s.meta "active_question_index" = some "2" ∨
   getMeta s.meta "active_question_index" = some "3") ∧
  (getMeta s.meta "reveal_correct" = some "0" ∨
   getMeta s.meta "reveal_correct" = some "1")

theorem pollInv_of_meta_keys {s t : Store}
    (hq : t.questions.length = s.questions.length)
    (hst : getMeta t.meta "poll_status" = getMeta s.meta "poll_status")
    (hidx : getMeta t.meta "active_question_index" =
      getMeta s.meta "active_question_index")
    (hrev : getMeta t.meta "reveal_correct" = getMeta s.meta "reveal_correct")
    (h : PollInv s) : PollInv t := by
  simp only [PollInv] at h ⊢
  rw [hq, hst, hidx, hrev]
  exact h

theorem pollInv_of_meta_eq {s t : Store}
    (hq : t.questions.length = s.questions.length) (hm : t.meta = s.meta)
    (h : PollInv s) : PollInv t :=
  pollInv_of_meta_keys hq (by rw [hm]) (by rw [hm]) (by rw [hm]) h

theorem pollInv_start (s : Store) (h : PollInv s) : PollInv (start s).1 := by
  obtain ⟨hL, hst, hidx, hrev⟩ := h
  refine ⟨by simpa [start] using hL, ?_, ?_, ?_⟩
  · right; left
    simp [start, getMeta_setMeta_same]
  · left
    simp only [start]
    rw [getMeta_setMeta_ne _ "poll_status" "active_question_index" _ (by decide),
      getMeta_setMeta_same]
  · simp only [start]
    rw [getMeta_setMeta_ne _ "poll_status" "reveal_correct" _ (by decide),
      getMeta_setMeta_ne _ "active_question_index" "reveal_correct" _ (by decide)]
    exact hrev

theorem pollInv_next (s : Store) (h : PollInv s) : PollInv (next s).2.1 := by
  obtain ⟨hL, hst, hidx, hrev⟩ := h
  have htotal : ((s.questions.length : Nat) : Int) = 4 := by rw [hL]; rfl
  refine ⟨by simpa [next] using hL, ?_, ?_, ?_⟩
  · right; left
    simp [next, getMeta_setMeta_same]
  · simp only [next]
    rw [getMeta_setMeta_ne _ "poll_status" "active_question_index" _ (by decide),
      getMeta_setMeta_same]
    rcases hidx with h0 | h0 | h0 | h0 <;>
      · have hcur : activeIndex s = parseIntD (jsOr (getMeta s.meta
          "active_question_index") "0") := rfl
        rw [h0] at hcur
        rw [hcur, htotal]
        decide
  · simp only [next]
    rw [getMeta_setMeta_ne _ "poll_status" "reveal_correct" _ (by decide),
      getMeta_setMeta_ne _ "active_question_index" "reveal_correct" _ (by decide)]
    exact hrev

theorem pollInv_endPoll (s : Store) (h : PollInv s) : PollInv (endPoll s).1 := by
  obtain ⟨hL, hst, hidx, hrev⟩ := h
  refine ⟨by simpa [endPoll] using hL, ?_, ?_, ?_⟩
  · right; right
    simp [endPoll, getMeta_setMeta_same]
  · simp only [endPoll]
    rw [getMeta_setMeta_ne _ "poll_status" "active_question_index" _ (by decide)]
    exact hidx
  · simp only [endPoll]
    rw [getMeta_setMeta_ne _ "poll_status" "reveal_correct" _ (by decide)]
    exact hrev

theorem pollInv_setReveal (s : Store) (b : Bool) (h : PollInv s) :
    PollInv (setReveal s b).1 := by
  obtain ⟨hL, hst, hidx, hrev⟩ := h
  refine ⟨by simpa [setReveal] using hL, ?_, ?_, ?_⟩
  · simp only [setReveal]
    rw [getMeta_setMeta_ne _ "reveal_correct" "poll_status" _ (by decide)]
    exact hst
  · simp only [setReveal]
    rw [getMeta_setMeta_ne _ "reveal_correct" "active_question_index" _ (by decide)]
    exact hidx
  · cases b
    · left; simp [setReveal, getMeta_setMeta_same]
    · right; simp [setReveal, getMeta_setMeta_same]

theorem pollInv_qnaHighlight (s : Store) (i : Option Int) (h : PollInv s) :
    PollInv (qnaHighlight s i).2.1 := by
  rcases i with _ | i
  · simpa [qnaHighlight] using h
  · simp only [qnaHighlight]
    split_ifs with hz
    · exact h
    · refine pollInv_of_meta_keys (by simp) ?_ ?_ ?_ h <;> simp only
      · exact getMeta_setMeta_ne _ "qna_highlight_id" "poll_status" _ (by decide)
      · exact getMeta_setMeta_ne _ "qna_highlight_id" "active_question_index" _
          (by decide)
      · exact getMeta_setMeta_ne _ "qna_highlight_id" "reveal_correct" _ (by decide)

theorem pollInv_qnaUnhighlight (s : Store) (h : PollInv s) :
    PollInv (qnaUnhighlight s).1 := by
  refine pollInv_of_meta_keys (by simp [qnaUnhighlight]) ?_ ?_ ?_ h <;>
    simp only [qnaUnhighlight]
  · exact getMeta_setMeta_ne _ "qna_highlight_id" "poll_status" _ (by decide)
  · exact getMeta_setMeta_ne _ "qna_highlight_id" "active_question_index" _
      (by decide)
  · exact getMeta_setMeta_ne _ "qna_highlight_id" "reveal_correct" _ (by decide)

/-- Every store the server can reach satisfies the poll-state invariant. -/
theorem reachable_pollInv (s : Store) (h : Reachable s) : PollInv s := by
  induction h with
  | base => exact ⟨rfl, Or.inl rfl, Or.inl rfl, Or.inl rfl⟩
  | vote s qj oj d _ ih =>
    exact pollInv_of_meta_eq (by rw [submitVote_questions])
      (submitVote_meta s qj oj d) ih
  | reset s qj d _ ih =>
    exact pollInv_of_meta_eq (by rw [resetVote_questions])
      (resetVote_meta s qj d) ih
  | bulk s answers _ ih =>
    exact pollInv_of_meta_eq (by rw [bulkSubmit_questions])
      (bulkSubmit_meta s answers) ih
  | startStep s _ ih => exact pollInv_start s ih
  | nextStep s _ ih => exact pollInv_next s ih
  | endStep s _ ih => exact pollInv_endPoll s ih
  | revealStep s b _ ih => exact pollInv_setReveal s b ih
  | correctStep s qj oj _ ih =>
    exact pollInv_of_meta_eq (setCorrectOption_questions_length s qj oj)
      (setCorrectOption_meta s qj oj) ih
  | qnaSubmitStep s t u _ ih =>
    exact pollInv_of_meta_eq (by rw [qnaSubmit_questions])
      (qnaSubmit_meta s t u) ih
  | qnaHighlightStep s i _ ih => exact pollInv_qnaHighlight s i ih
  | qnaUnhighlightStep s _ ih => exact pollInv_qnaUnhighlight s ih
  | qnaRejectStep s i _ ih =>
    exact pollInv_of_meta_eq (by rw [qnaReject_questions])
      (qnaReject_meta s i) ih

/-- C1: for every request to `submitVote` (`POST /api/vote`): if `questionId`
or `optionId` is missing, zero or non-numeric, or `deviceId` is empty after
trimming, the request fails with the 400 validation error and leaves the
store untouched with no broadcast; otherwise it answers the 409
`ALREADY_VOTED` conflict exactly when a vote row for `(deviceId, questionId)`
already exists, inserting nothing in that case, and when no such row exists
it inserts exactly one vote row and broadcasts `statsUpdated`. -/
theorem submitVote_contract (s : Store) (qj oj : Option Int) (dRaw : String) :
    (numFalsy qj = true ∨ numFalsy oj = true ∨ jsTrim dRaw = "" →
      submitVote s qj oj dRaw = (.invalid, s, [])) ∧
    (∀ qid oid, qj = some qid → oj = some oid → qid ≠ 0 → oid ≠ 0 →
      jsTrim dRaw ≠ "" →
      ((submitVote s qj oj dRaw).1 = .alreadyVoted ↔
        hasVote s (jsTrim dRaw) qid = true) ∧
      (hasVote s (jsTrim dRaw) qid = true →
        submitVote s qj oj dRaw = (.alreadyVoted, s, [])) ∧
      (hasVote s (jsTrim dRaw) qid = false →
        submitVote s qj oj dRaw =
          (.ok,
           { s with
              responses := s.responses ++ [⟨s.nextRespId, qid, oid, some (jsTrim dRaw)⟩],
              nextRespId := s.nextRespId + 1 },
           [.statsUpdated]))) := by
  constructor
  · intro h
    rcases qj with _ | qid
    · simp [submitVote]
    rcases oj with _ | oid
    · simp [submitVote]
    have hcond : (qid == 0 || oid == 0 || (jsTrim dRaw == "")) = true := by
      rcases h with h | h | h <;> simp [numFalsy] at h ⊢ <;> simp [h]
    simp [submitVote, hcond]
  · intro qid oid hq ho hq0 ho0 hd
    subst hq; subst ho
    have hcond : (qid == 0 || oid == 0 || (jsTrim dRaw == "")) = false := by
      simp [hq0, ho0, hd]
    by_cases hv : hasVote s (jsTrim dRaw) qid = true
    · have hred : submitVote s (some qid) (some oid) dRaw =
          (.alreadyVoted, s, []) := by
        simp [submitVote, hcond, hv]
      refine ⟨?_, fun _ => hred, fun hvf => ?_⟩
      · rw [hred]; simp [hv]
      · rw [hv] at hvf; cases hvf
    · have hv' : hasVote s (jsTrim dRaw) qid = false := by
        simpa using hv
      have hred : submitVote s (some qid) (some oid) dRaw =
          (.ok,
           { s with
              responses := s.responses ++ [⟨s.nextRespId, qid, oid, some (jsTrim dRaw)⟩],
              nextRespId := s.nextRespId + 1 },
           [.statsUpdated]) := by
        simp [submitVote, hcond, hv', voteInsert, insertResponse]
      refine ⟨?_, fun hvt => ?_, fun _ => hred⟩
      · rw [hred]; simp [hv']
      · rw [hv'] at hvt; cases hvt

theorem submitVote_contract_witness :
    hasVote init "d" 1 = false ∧
    submitVote init (some 1) (some 2) " d " =
      (.ok,
       { questions := seedQuestions, options := seedOptions,
         responses := [⟨1, 1, 2, some "d"⟩], qna := [],
         meta := [("seed_version", "4"), ("poll_status", "idle"),
                  ("active_question_index", "0"), ("reveal_correct", "0")],
         nextRespId := 2, nextQnaId := 1 },
       [.statsUpdated]) := by
  have h := ((submitVote_contract init (some 1) (some 2) " d ").2 1 2 rfl rfl
    (by decide) (by decide) (by decide)).2.2 (by decide)
  refine ⟨by decide, ?_⟩
  rw [h]
  decide

/-- C2, counterexample: in the race where two requests for the same
`(deviceId, questionId)` both pass the existence check (both observe
`hasVote = false` on the same store), the losing insert phase hits the unique
index and the handler, having no try/catch, surfaces a generic server error:
it is not mapped back to `ALREADY_VOTED`. -/
theorem vote_race_counterexample :
    hasVote init "d" 1 = false ∧
    (voteInsert init 1 1 "d").1 = .ok ∧
    (voteInsert (voteInsert init 1 1 "d").2.1 1 1 "d").1 = .serverError ∧
    ¬(voteInsert (voteInsert init 1 1 "d").2.1 1 1 "d").1 = .alreadyVoted := by
  decide

/-- C2, amended: when two concurrent `submitVote` requests for the same
`(deviceId, questionId)` both pass the existence check against the same
store, the winner inserts its row, and the loser fails at the storage layer
on the uniqueness constraint without inserting anything; that failure
surfaces as a generic server error (500-equivalent), not as the
`ALREADY_VOTED` (409-equivalent) condition. -/
theorem vote_race_surfaces_serverError (s : Store) (qid oid oid2 : Int)
    (d : String) (hq0 : qid ≠ 0) (ho0 : oid ≠ 0)
    (hdt : jsTrim d = d) (hd : d ≠ "") (hv : hasVote s d qid = false) :
    submitVote s (some qid) (some oid) d = voteInsert s qid oid d ∧
    (voteInsert s qid oid d).1 = .ok ∧
    (voteInsert s qid oid d).2.1.responses =
      s.responses ++ [⟨s.nextRespId, qid, oid, some d⟩] ∧
    (voteInsert (voteInsert s qid oid d).2.1 qid oid2 d).1 = .serverError ∧
    (voteInsert (voteInsert s qid oid d).2.1 qid oid2 d).1 ≠ .alreadyVoted ∧
    (voteInsert (voteInsert s qid oid d).2.1 qid oid2 d).2.1 =
      (voteInsert s qid oid d).2.1 := by
  have hs2 : (voteInsert s qid oid d).2.1 =
      { s with responses := s.responses ++ [⟨s.nextRespId, qid, oid, some d⟩],
               nextRespId := s.nextRespId + 1 } := by
    simp [voteInsert, insertResponse, hv]
  have hwin : (voteInsert s qid oid d).1 = .ok := by
    simp [voteInsert, insertResponse, hv]
  have hv2 : hasVote (voteInsert s qid oid d).2.1 d qid = true := by
    rw [hs2]
    simp [hasVote]
  have hloser : voteInsert ((voteInsert s qid oid d).2.1) qid oid2 d =
      (.serverError, (voteInsert s qid oid d).2.1, []) := by
    generalize hXX : (voteInsert s qid oid d).2.1 = X at hv2 ⊢
    have hins : insertResponse X qid oid2 (some d) = Except.error () := by
      simp [insertResponse, hv2]
    unfold voteInsert
    rw [hins]
  refine ⟨?_, hwin, by rw [hs2], by rw [hloser], by rw [hloser]; simp,
    by rw [hloser]⟩
  · simp [submitVote, hdt, hq0, ho0, hd, hv]

theorem vote_race_surfaces_serverError_witness :
    (1 : Int) ≠ 0 ∧ jsTrim "d" = "d" ∧ ("d" : String) ≠ "" ∧
    hasVote init "d" 1 = false ∧
    (submitVote init (some 1) (some 1) "d" = voteInsert init 1 1 "d" ∧
     (voteInsert init 1 1 "d").1 = .ok ∧
     (voteInsert init 1 1 "d").2.1.responses =
       init.responses ++ [⟨init.nextRespId, 1, 1, some "d"⟩] ∧
     (voteInsert (voteInsert init 1 1 "d").2.1 1 2 "d").1 = .serverError ∧
     (voteInsert (voteInsert init 1 1 "d").2.1 1 2 "d").1 ≠ .alreadyVoted ∧
     (voteInsert (voteInsert init 1 1 "d").2.1 1 2 "d").2.1 =
       (voteInsert init 1 1 "d").2.1) :=
  ⟨by decide, by decide, by decide, by decide,
   vote_race_surfaces_serverError init 1 1 2 "d" (by decide) (by decide)
     (by decide) (by decide) (by decide)⟩

/-- The clamped index `Math.min(current + 1, Math.max(0, total - 1))`
computed by `POST /api/admin/next` (line 250). -/
def nextIndex (s : Store) : Int :=
  jsMin (activeIndex s + 1) (jsMax 0 ((s.questions.length : Int) - 1))

theorem next_unfold (s : Store) :
    next s = (nextIndex s,
      { s with meta := setMeta (setMeta s.meta "active_question_index" (toString (nextIndex s))) "poll_status" "running" },
      [.stateChanged]) := rfl

theorem next_aux (s : Store) (k n : Int) (hL : s.questions.length = 4)
    (hcur : activeIndex s = k) (hn : jsMin (k + 1) (jsMax 0 (4 - 1)) = n)
    (hround : parseIntD (jsOr (some (toString n)) "0") = n) :
    (next s).1 = n ∧ activeIndex (next s).2.1 = n ∧
    pollStatus (next s).2.1 = "running" ∧ (next s).2.2 = [.stateChanged] := by
  have htotal : ((s.questions.length : Int)) = 4 := by rw [hL]; rfl
  have hnx : nextIndex s = n := by
    unfold nextIndex
    rw [hcur, htotal]
    exact hn
  have h1 : (next s).1 = n := by
    rw [next_unfold, hnx]
  have hm : (next s).2.1.meta =
      setMeta (setMeta s.meta "active_question_index" (toString n))
        "poll_status" "running" := by
    rw [next_unfold, hnx]
  refine ⟨h1, ?_, ?_, rfl⟩
  · unfold activeIndex
    rw [hm, getMeta_setMeta_ne _ "poll_status" "active_question_index" _
      (by decide), getMeta_setMeta_same]
    exact hround
  · unfold pollStatus
    rw [hm, getMeta_setMeta_same]
    decide

/-- C3: on every reachable poll state, `next()` sets the active question
index to `min(current + 1, questionCount - 1)` and answers that index,
clamping instead of erroring (at the last question it leaves the index
unchanged and returns the same index), and it sets the status to `running`
regardless of the prior status, including `ended`. -/
theorem next_clamps (s : Store) (h : Reachable s) :
    (next s).1 = min (activeIndex s + 1) ((s.questions.length : Int) - 1) ∧
    activeIndex (next s).2.1 = (next s).1 ∧
    pollStatus (next s).2.1 = "running" ∧
    (next s).2.2 = [.stateChanged] ∧
    (activeIndex s = (s.questions.length : Int) - 1 →
      activeIndex (next s).2.1 = activeIndex s) := by
  obtain ⟨hL, _, hidx, _⟩ := reachable_pollInv s h
  have htotal : ((s.questions.length : Int)) = 4 := by rw [hL]; rfl
  have main : ∀ k n : Int, activeIndex s = k →
      jsMin (k + 1) (jsMax 0 (4 - 1)) = n →
      parseIntD (jsOr (some (toString n)) "0") = n →
      min (k + 1) ((4 : Int) - 1) = n →
      (k = (4 : Int) - 1 → n = k) →
      (next s).1 = min (activeIndex s + 1) ((s.questions.length : Int) - 1) ∧
      activeIndex (next s).2.1 = (next s).1 ∧
      pollStatus (next s).2.1 = "running" ∧
      (next s).2.2 = [.stateChanged] ∧
      (activeIndex s = (s.questions.length : Int) - 1 →
        activeIndex (next s).2.1 = activeIndex s) := by
    intro k n hcur hn hround hmin hlast
    obtain ⟨h1, h2, h3, h4⟩ := next_aux s k n hL hcur hn hround
    refine ⟨?_, by rw [h2, h1], h3, h4, ?_⟩
    · rw [h1, hcur, htotal, hmin]
    · intro hEq
      rw [hcur, htotal] at hEq
      rw [h2, hcur, hlast hEq]
  rcases hidx with h0 | h0 | h0 | h0
  · exact main 0 1 (by unfold activeIndex; rw [h0]; decide) (by decide)
      (by decide) (by rw [← jsMin_eq_min]; decide) (by decide)
  · exact main 1 2 (by unfold activeIndex; rw [h0]; decide) (by decide)
      (by decide) (by rw [← jsMin_eq_min]; decide) (by decide)
  · exact main 2 3 (by unfold activeIndex; rw [h0]; decide) (by decide)
      (by decide) (by rw [← jsMin_eq_min]; decide) (by decide)
  · exact main 3 3 (by unfold activeIndex; rw [h0]; decide) (by decide)
      (by decide) (by rw [← jsMin_eq_min]; decide) (by decide)

theorem next_clamps_witness :
    (next init).1 = min (activeIndex init + 1) ((init.questions.length : Int) - 1) ∧
    activeIndex (next init).2.1 = (next init).1 ∧
    pollStatus (next init).2.1 = "running" ∧
    (next init).2.2 = [.stateChanged] ∧
    (activeIndex init = (init.questions.length : Int) - 1 →
      activeIndex (next init).2.1 = activeIndex init) :=
  next_clamps init Reachable.base

/-- C8: from the initialized state, after any sequence of the modelled
operations, the poll state satisfies status among idle, running and ended,
an active question index that is a non-negative integer below the question
count, and a boolean reveal flag stored as "0" or "1"; and no operation
other than `start`, `next`, `endPoll` and `setReveal` mutates these three
fields. -/
theorem pollState_invariant :
    (∀ s, Reachable s →
      (pollStatus s = "idle" ∨ pollStatus s = "running" ∨
        pollStatus s = "ended") ∧
      0 ≤ activeIndex s ∧ activeIndex s < (s.questions.length : Int) ∧
      (getMeta s.meta "reveal_correct" = some "0" ∨
        getMeta s.meta "reveal_correct" = some "1")) ∧
    (∀ s (qj oj : Option Int) (d : String),
      pollView (submitVote s qj oj d).2.1 = pollView s) ∧
    (∀ s (qj : Option Int) (d : String),
      pollView (resetVote s qj d).2.1 = pollView s) ∧
    (∀ s (answers : List AnswerRow),
      pollView (bulkSubmit s answers).2.1 = pollView s) ∧
    (∀ s (qj oj : Option Int),
      pollView (setCorrectOption s qj oj).2.1 = pollView s) ∧
    (∀ s (t u : Option String),
      pollView (qnaSubmit s t u).2.1 = pollView s) ∧
    (∀ s (i : Option Int), pollView (qnaHighlight s i).2.1 = pollView s) ∧
    (∀ s, pollView (qnaUnhighlight s).1 = pollView s) ∧
    (∀ s (i : Option Int), pollView (qnaReject s i).2.1 = pollView s) := by
  refine ⟨?_, ?_, ?_, ?_, ?_, ?_, qnaHighlight_pollView, qnaUnhighlight_pollView,
    fun s i => pollView_eq_of_meta_eq (qnaReject_meta s i)⟩
  · intro s h
    obtain ⟨hL, hst, hidx, hrev⟩ := reachable_pollInv s h
    have htotal : ((s.questions.length : Int)) = 4 := by rw [hL]; rfl
    refine ⟨?_, ?_, ?_, hrev⟩
    · rcases hst with h0 | h0 | h0
      · left
        unfold pollStatus
        rw [h0]
        decide
      · right; left
        unfold pollStatus
        rw [h0]
        decide
      · right; right
        unfold pollStatus
        rw [h0]
        decide
    · rcases hidx with h0 | h0 | h0 | h0 <;>
        · unfold activeIndex
          rw [h0]
          decide
    · rw [htotal]
      rcases hidx with h0 | h0 | h0 | h0 <;>
        · unfold activeIndex
          rw [h0]
          decide
  · exact fun s qj oj d => pollView_eq_of_meta_eq (submitVote_meta s qj oj d)
  · exact fun s qj d => pollView_eq_of_meta_eq (resetVote_meta s qj d)
  · exact fun s answers => pollView_eq_of_meta_eq (bulkSubmit_meta s answers)
  · exact fun s qj oj => pollView_eq_of_meta_eq (setCorrectOption_meta s qj oj)
  · exact fun s t u => pollView_eq_of_meta_eq (qnaSubmit_meta s t u)

theorem pollState_invariant_witness :
    Reachable init ∧
    ((pollStatus init = "idle" ∨ pollStatus init = "running" ∨
        pollStatus init = "ended") ∧
      0 ≤ activeIndex init ∧ activeIndex init < (init.questions.length : Int) ∧
      (getMeta init.meta "reveal_correct" = some "0" ∨
        getMeta init.meta "reveal_correct" = some "1")) :=
  ⟨Reachable.base, pollState_invariant.1 init Reachable.base⟩

/-- The row predicate of `WHERE device_id = ? AND question_id = ?`. -/
def voteHit (d : String) (qid : Int) : Response → Bool :=
  fun r => r.device_id == some d && r.question_id == qid

theorem voteHit_def (d : String) (qid : Int) :
    voteHit d qid =
      fun r => r.device_id == some d && r.question_id == qid := rfl

theorem length_filter_not_add_countP (p : Response → Bool) (l : List Response) :
    l.length = (l.filter (fun r => !p r)).length + l.countP p := by
  induction l with
  | nil => simp
  | cons r rest ih =>
    by_cases h : p r = true
    · simp [List.countP_cons, List.filter_cons, h, ih]
      omega
    · have h' : p r = false := by simpa using h
      simp [List.countP_cons, List.filter_cons, h', ih]
      omega

/-- The guarantee of the unique index `idx_responses_device_question`: no two
response rows share a non-NULL device id and a question id. -/
def VotesUnique (s : Store) : Prop :=
  s.responses.Pairwise (fun a b =>
    a.device_id = none ∨
    ¬(a.device_id = b.device_id ∧ a.question_id = b.question_id))

theorem countP_votes_le_one (l : List Response)
    (h : l.Pairwise (fun a b =>
      a.device_id = none ∨
      ¬(a.device_id = b.device_id ∧ a.question_id = b.question_id)))
    (d : String) (qid : Int) : l.countP (voteHit d qid) ≤ 1 := by
  induction l with
  | nil => simp
  | cons r rest ih =>
    rw [List.countP_cons]
    rcases List.pairwise_cons.mp h with ⟨hr, hrest⟩
    by_cases hm : voteHit d qid r = true
    · have hmm : r.device_id = some d ∧ r.question_id = qid := by
        simpa [voteHit] using hm
      have htail : rest.countP (voteHit d qid) = 0 := by
        rw [List.countP_eq_zero]
        intro x hx
        rcases hr x hx with h1 | h1
        · rw [hmm.1] at h1
          cases h1
        · simp only [voteHit, Bool.and_eq_true, beq_iff_eq]
          rintro ⟨hxd, hxq⟩
          exact h1 ⟨by rw [hmm.1, hxd], by rw [hmm.2, hxq]⟩
      rw [htail, hm]
      simp
    · have hm' : voteHit d qid r = false := by simpa using hm
      rw [hm']
      simpa using ih hrest

/-- C4: for every `(questionId, deviceId)` with valid inputs, `resetVote`
deletes the matching vote row if present and is idempotent: it answers a
removed count of 0 or 1 equal to the number of rows actually deleted,
broadcasts only when a row was actually removed, and a second call right
after (in particular when there was no vote at all) answers `removed = 0`
with no broadcast. -/
theorem resetVote_idempotent (s : Store) (qid : Int) (dRaw : String)
    (hu : VotesUnique s) (hq0 : qid ≠ 0) (hd : jsTrim dRaw ≠ "") :
    (resetVote s (some qid) dRaw).1 =
      .ok (s.responses.countP (voteHit (jsTrim dRaw) qid)) ∧
    s.responses.countP (voteHit (jsTrim dRaw) qid) ≤ 1 ∧
    (resetVote s (some qid) dRaw).2.1.responses =
      s.responses.filter (fun r => !voteHit (jsTrim dRaw) qid r) ∧
    s.responses.length = (resetVote s (some qid) dRaw).2.1.responses.length +
      s.responses.countP (voteHit (jsTrim dRaw) qid) ∧
    ((resetVote s (some qid) dRaw).2.2 =
      if s.responses.countP (voteHit (jsTrim dRaw) qid) > 0
      then [.statsUpdated] else []) ∧
    resetVote (resetVote s (some qid) dRaw).2.1 (some qid) dRaw =
      (.ok 0, (resetVote s (some qid) dRaw).2.1, []) := by
  have hred : resetVote s (some qid) dRaw =
      (.ok (s.responses.countP (voteHit (jsTrim dRaw) qid)),
       { s with responses :=
          s.responses.filter (fun r => !voteHit (jsTrim dRaw) qid r) },
       if s.responses.countP (voteHit (jsTrim dRaw) qid) > 0
       then [.statsUpdated] else []) := by
    simp only [resetVote]
    rw [if_neg]
    · rfl
    · simp [hq0, hd]
  have hzero : (s.responses.filter
      (fun r => !voteHit (jsTrim dRaw) qid r)).countP
        (voteHit (jsTrim dRaw) qid) = 0 := by
    rw [List.countP_eq_zero]
    intro x hx
    have := (List.mem_filter.mp hx).2
    simp only [Bool.not_eq_true'] at this
    simp [this]
  have hself : (s.responses.filter
      (fun r => !voteHit (jsTrim dRaw) qid r)).filter
        (fun r => !voteHit (jsTrim dRaw) qid r) =
      s.responses.filter (fun r => !voteHit (jsTrim dRaw) qid r) := by
    rw [List.filter_eq_self]
    intro a ha
    exact (List.mem_filter.mp ha).2
  refine ⟨by rw [hred], countP_votes_le_one s.responses hu _ _, by rw [hred],
    ?_, by rw [hred], ?_⟩
  · rw [hred]
    exact length_filter_not_add_countP (voteHit (jsTrim dRaw) qid) s.responses
  · rw [hred]
    simp only [resetVote]
    rw [if_neg]
    · have hzero2 : List.countP
          (fun r => r.device_id == some (jsTrim dRaw) && r.question_id == qid)
          (List.filter (fun r => !voteHit (jsTrim dRaw) qid r) s.responses) =
          0 := hzero
      have hself2 : List.filter
          (fun r => !(r.device_id == some (jsTrim dRaw) && r.question_id == qid))
          (List.filter (fun r => !voteHit (jsTrim dRaw) qid r) s.responses) =
          List.filter (fun r => !voteHit (jsTrim dRaw) qid r) s.responses :=
        hself
      rw [hzero2, hself2]
      simp
    · simp [hq0, hd]

theorem resetVote_idempotent_witness :
    (resetVote init (some 1) "d").1 = .ok 0 ∧
    (resetVote init (some 1) "d").2.2 = [] ∧
    resetVote (resetVote init (some 1) "d").2.1 (some 1) "d" =
      (.ok 0, (resetVote init (some 1) "d").2.1, []) := by
  have h := resetVote_idempotent init 1 "d" List.Pairwise.nil (by decide)
    (by decide)
  refine ⟨?_, ?_, h.2.2.2.2.2⟩
  · rw [h.1]
    decide
  · rw [h.2.2.2.2.1]
    decide

/-- The response rows the `/api/submit` transaction appends for a batch,
starting from the AUTOINCREMENT cursor `n`: rows with a falsy id are
skipped, the others get consecutive fresh ids and a NULL device id. -/
def buildRows (n : Int) : List AnswerRow → List Response
  | [] => []
  | a :: rest =>
    if numFalsy a.questionId || numFalsy a.optionId then buildRows n rest
    else ⟨n, a.questionId.getD 0, a.optionId.getD 0, none⟩ :: buildRows (n + 1) rest

theorem foldl_insertAnswer_responses (answers : List AnswerRow) (s : Store) :
    (answers.foldl insertAnswer s).responses =
      s.responses ++ buildRows s.nextRespId answers := by
  induction answers generalizing s with
  | nil => simp [buildRows]
  | cons a rest ih =>
    rw [List.foldl_cons]
    by_cases hf : (numFalsy a.questionId || numFalsy a.optionId) = true
    · rw [show insertAnswer s a = s from by simp [insertAnswer, hf], ih s]
      simp [buildRows, hf]
    · have hf' : (numFalsy a.questionId || numFalsy a.optionId) = false := by
        simpa using hf
      have hins : insertAnswer s a =
          { s with
            responses := s.responses ++
              [⟨s.nextRespId, a.questionId.getD 0, a.optionId.getD 0, none⟩],
            nextRespId := s.nextRespId + 1 } := by
        simp [insertAnswer, hf']
      rw [hins, ih]
      simp [buildRows, hf']

theorem buildRows_length (answers : List AnswerRow) (n : Int) :
    (buildRows n answers).length =
      answers.countP
        (fun a => !(numFalsy a.questionId || numFalsy a.optionId)) := by
  induction answers generalizing n with
  | nil => simp [buildRows]
  | cons a rest ih =>
    by_cases hf : (numFalsy a.questionId || numFalsy a.optionId) = true
    · have hpa : (!(numFalsy a.questionId || numFalsy a.optionId)) = false := by
        rw [hf]
        rfl
      simp only [buildRows]
      rw [if_pos hf, List.countP_cons, hpa, ih]
      simp
    · have hf' : (numFalsy a.questionId || numFalsy a.optionId) = false := by
        simpa using hf
      have hpa : (!(numFalsy a.questionId || numFalsy a.optionId)) = true := by
        rw [hf']
        rfl
      simp only [buildRows]
      rw [if_neg (by simp [hf']), List.countP_cons, hpa, List.length_cons, ih]
      simp

/-- C5: for every non-empty batch given to `bulkSubmit` (`POST /api/submit`),
entries with a falsy `questionId` or `optionId` are silently skipped rather
than failing the batch, the remaining rows are all inserted by the one
transaction, and exactly one `statsUpdated` broadcast is issued for the
whole batch. -/
theorem bulkSubmit_batch (s : Store) (answers : List AnswerRow)
    (h : answers ≠ []) :
    (bulkSubmit s answers).1 = .ok ∧
    (bulkSubmit s answers).2.1.responses =
      s.responses ++ buildRows s.nextRespId answers ∧
    (buildRows s.nextRespId answers).length =
      answers.countP
        (fun a => !(numFalsy a.questionId || numFalsy a.optionId)) ∧
    (bulkSubmit s answers).2.2 = [.statsUpdated] := by
  have hne : answers.isEmpty = false := by
    rcases answers with _ | ⟨a, rest⟩
    · cases h rfl
    · rfl
  refine ⟨?_, ?_, buildRows_length answers s.nextRespId, ?_⟩
  · simp [bulkSubmit, hne]
  · simp only [bulkSubmit, hne, Bool.false_eq_true, if_false]
    exact foldl_insertAnswer_responses answers s
  · simp [bulkSubmit, hne]

theorem bulkSubmit_batch_witness :
    ([⟨some 1, some 2⟩, ⟨some 0, some 5⟩] : List AnswerRow) ≠ [] ∧
    (bulkSubmit init [⟨some 1, some 2⟩, ⟨some 0, some 5⟩]).1 = .ok ∧
    (bulkSubmit init [⟨some 1, some 2⟩, ⟨some 0, some 5⟩]).2.1.responses =
      [⟨1, 1, 2, none⟩] ∧
    (bulkSubmit init [⟨some 1, some 2⟩, ⟨some 0, some 5⟩]).2.2 =
      [.statsUpdated] := by
  have h := bulkSubmit_batch init [⟨some 1, some 2⟩, ⟨some 0, some 5⟩]
    (by decide)
  refine ⟨by decide, h.1, ?_, h.2.2.2⟩
  rw [h.2.1]
  decide

theorem foldl_add_count (l : List OptStat) (n : Nat) :
    l.foldl (fun acc o => acc + o.count) n = n + (l.map OptStat.count).sum := by
  induction l generalizing n with
  | nil => simp
  | cons o rest ih =>
    rw [List.foldl_cons, ih, List.map_cons, List.sum_cons, Nat.add_assoc]

/-- C6: every entry reported by the stats endpoint carries, for each of the
question options, a count equal to the number of vote rows referencing that
option, and a total equal to the sum of those per-option counts. -/
theorem stats_tally_correct (s : Store) (qsel : Option Int) (entry : QStat)
    (h : entry ∈ stats s qsel) :
    (∀ o ∈ entry.options,
      o.count = (s.responses.filter (fun r => r.option_id == o.id)).length) ∧
    entry.total = (entry.options.map OptStat.count).sum := by
  have hq : ∃ q, entry = statEntry s q := by
    rcases qsel with _ | qid
    · simp only [stats] at h
      obtain ⟨q, _, hqe⟩ := List.mem_map.mp h
      exact ⟨q, hqe.symm⟩
    · simp only [stats] at h
      obtain ⟨q, _, hqe⟩ := List.mem_map.mp h
      exact ⟨q, hqe.symm⟩
  obtain ⟨q, rfl⟩ := hq
  constructor
  · intro o ho
    simp only [statEntry] at ho
    obtain ⟨orow, _, hoe⟩ := List.mem_map.mp ho
    rw [← hoe]
    simp only [countOpt]
    rw [List.countP_eq_length_filter]
  · simp only [statEntry]
    rw [foldl_add_count]
    simp

/-- The store after the spec example on question 1: votes for option 1 (A),
option 1 (A) and option 2 (B) from three distinct devices. -/
def tallyExample : Store :=
  (submitVote (submitVote (submitVote init (some 1) (some 1) "da").2.1
    (some 1) (some 1) "db").2.1 (some 1) (some 2) "dc").2.1

/-- The stats entry the example should produce: A:2, B:1, C:0, total 3. -/
def tallyExampleEntry : QStat :=
  ⟨1, "When was Alef launched?", 3,
   [⟨1, "2012", 2⟩, ⟨2, "2013", 1⟩, ⟨3, "2014", 0⟩], none⟩

theorem stats_tally_correct_witness :
    tallyExampleEntry ∈ stats tallyExample (some 1) ∧
    tallyExampleEntry.total =
      (tallyExampleEntry.options.map OptStat.count).sum :=
  ⟨by decide,
   (stats_tally_correct tallyExample (some 1) tallyExampleEntry (by decide)).2⟩

/-- C7: for every valid id, `reject(id)` hard-deletes the Q&A item, so a
subsequent `list()` never includes that id; re-rejecting the same id is a
no-op that succeeds without error; and it broadcasts a `qnaRejected`
event. -/
theorem qnaReject_final (s : Store) (i : Int) (hi : i ≠ 0) :
    (qnaReject s (some i)).1 = .ok ∧
    (qnaReject s (some i)).2.2 = [.qnaRejected i] ∧
    (∀ r ∈ qnaList (qnaReject s (some i)).2.1, r.id ≠ i) ∧
    qnaReject (qnaReject s (some i)).2.1 (some i) =
      (.ok, (qnaReject s (some i)).2.1, [.qnaRejected i]) := by
  have hred : qnaReject s (some i) =
      (.ok, { s with qna := s.qna.filter (fun r => !(r.id == i)) },
       [.qnaRejected i]) := by
    simp [qnaReject, hi]
  refine ⟨by rw [hred], by rw [hred], ?_, ?_⟩
  · intro r hr
    rw [hred] at hr
    simp only [qnaList] at hr
    have hr2 := List.take_subset _ _ hr
    have hr3 := (List.mergeSort_perm _ _).mem_iff.mp hr2
    have hr4 := (List.mem_filter.mp hr3).2
    simpa using hr4
  · rw [hred]
    simp only [qnaReject]
    rw [if_neg (by simp [hi])]
    have hself : List.filter (fun r : QnaRow => !(r.id == i))
        (List.filter (fun r : QnaRow => !(r.id == i)) s.qna) =
        List.filter (fun r : QnaRow => !(r.id == i)) s.qna := by
      rw [List.filter_eq_self]
      intro a ha
      exact (List.mem_filter.mp ha).2
    rw [hself]

/-- A store holding one submitted Q&A item (id 1). -/
def qnaExample : Store := (qnaSubmit init (some "why?") none).2.1

theorem qnaReject_final_witness :
    (qnaReject qnaExample (some 1)).1 = .ok ∧
    (qnaReject qnaExample (some 1)).2.2 = [.qnaRejected 1] ∧
    qnaReject (qnaReject qnaExample (some 1)).2.1 (some 1) =
      (.ok, (qnaReject qnaExample (some 1)).2.1, [.qnaRejected 1]) := by
  have h := qnaReject_final qnaExample 1 (by decide)
  exact ⟨h.1, h.2.1, h.2.2.2⟩

/-- C10: `reject(id)` mutates only the Q&A table and leaves the highlight
pointer in `meta` unchanged, so when the rejected item was the currently
highlighted one, a highlight read still answers the rejected id until
`unhighlight()` or a new `highlight(id)` runs; and `reject` broadcasts its
`qnaRejected` event even when no row with that id existed. -/
theorem qnaReject_frame (s : Store) (i : Int) (hi : i ≠ 0) :
    (qnaReject s (some i)).2.1.meta = s.meta ∧
    qnaHighlightGet (qnaReject s (some i)).2.1 = qnaHighlightGet s ∧
    (qnaHighlightGet s = i → qnaHighlightGet (qnaReject s (some i)).2.1 = i) ∧
    (qnaReject s (some i)).2.2 = [.qnaRejected i] := by
  have hm := qnaReject_meta s (some i)
  have hget : qnaHighlightGet (qnaReject s (some i)).2.1 = qnaHighlightGet s := by
    unfold qnaHighlightGet
    rw [hm]
  exact ⟨hm, hget, fun h => hget.trans h, by simp [qnaReject, hi]⟩

/-- A store whose highlight pointer names id 1 while no Q&A row exists. -/
def frameExample : Store := (qnaHighlight init (some 1)).2.1

theorem qnaReject_frame_witness :
    frameExample.qna = [] ∧
    qnaHighlightGet frameExample = 1 ∧
    ((qnaReject frameExample (some 1)).2.1.meta = frameExample.meta ∧
     qnaHighlightGet (qnaReject frameExample (some 1)).2.1 =
       qnaHighlightGet frameExample ∧
     (qnaHighlightGet frameExample = 1 →
       qnaHighlightGet (qnaReject frameExample (some 1)).2.1 = 1) ∧
     (qnaReject frameExample (some 1)).2.2 = [.qnaRejected 1]) :=
  ⟨by decide, by decide, qnaReject_frame frameExample 1 (by decide)⟩

theorem countOpt_append_fresh (s t : Store) (row : Response)
    (hr : t.responses = s.responses ++ [row]) (oid : Int)
    (hne : oid ≠ row.option_id) : countOpt t oid = countOpt s oid := by
  unfold countOpt
  rw [hr, List.countP_append]
  have hone : List.countP (fun r => r.option_id == oid) [row] = 0 := by
    simp [List.countP_cons, Ne.symm hne]
  rw [hone, Nat.add_zero]

theorem statEntry_append_fresh (s t : Store) (row : Response)
    (ho : t.options = s.options) (hr : t.responses = s.responses ++ [row])
    (hfresh : ∀ o ∈ s.options, o.id ≠ row.option_id) (q : Question) :
    statEntry t q = statEntry s q := by
  simp only [statEntry, ho]
  have hmap : ∀ o ∈ s.options.filter (fun o => o.question_id == q.id),
      ({ id := o.id, text := o.text, count := countOpt t o.id } : OptStat) =
      { id := o.id, text := o.text, count := countOpt s o.id } := by
    intro o hof
    have hne := hfresh o (List.mem_of_mem_filter hof)
    rw [countOpt_append_fresh s t row hr o.id hne]
  rw [List.map_congr_left hmap]

theorem stats_append_fresh (s t : Store) (row : Response)
    (hq : t.questions = s.questions) (ho : t.options = s.options)
    (hr : t.responses = s.responses ++ [row])
    (hfresh : ∀ o ∈ s.options, o.id ≠ row.option_id) (qsel : Option Int) :
    stats t qsel = stats s qsel := by
  have hentry : ∀ q, statEntry t q = statEntry s q :=
    statEntry_append_fresh s t row ho hr hfresh
  rcases qsel with _ | qid
  · simp only [stats, hq]
    exact List.map_congr_left fun q _ => hentry q
  · simp only [stats, hq]
    exact List.map_congr_left fun q _ => hentry q

/-- C9 (implicit): `submitVote` and `bulkSubmit` do not check that the ids
reference any existing question or option (the declared foreign keys are not
enforced): a vote with non-zero numeric ids matching no seeded question or
option is accepted with ok and inserted, yet such a row is never counted in
any stats result, because stats only counts votes whose `option_id` matches
an option row. -/
theorem ghost_votes (s : Store) (qid oid : Int) (dRaw : String)
    (hq0 : qid ≠ 0) (ho0 : oid ≠ 0) (hd : jsTrim dRaw ≠ "")
    (hv : hasVote s (jsTrim dRaw) qid = false)
    (hfresh : ∀ o ∈ s.options, o.id ≠ oid) :
    (submitVote s (some qid) (some oid) dRaw).1 = .ok ∧
    (submitVote s (some qid) (some oid) dRaw).2.1.responses =
      s.responses ++ [⟨s.nextRespId, qid, oid, some (jsTrim dRaw)⟩] ∧
    (∀ qsel, stats (submitVote s (some qid) (some oid) dRaw).2.1 qsel =
      stats s qsel) ∧
    (bulkSubmit s [⟨some qid, some oid⟩]).1 = .ok ∧
    (bulkSubmit s [⟨some qid, some oid⟩]).2.1.responses =
      s.responses ++ [⟨s.nextRespId, qid, oid, none⟩] ∧
    (∀ qsel, stats (bulkSubmit s [⟨some qid, some oid⟩]).2.1 qsel =
      stats s qsel) := by
  have hcond : (qid == 0 || oid == 0 || (jsTrim dRaw == "")) = false := by
    simp [hq0, ho0, hd]
  have hvred : submitVote s (some qid) (some oid) dRaw =
      (.ok,
       { s with
          responses := s.responses ++ [⟨s.nextRespId, qid, oid, some (jsTrim dRaw)⟩],
          nextRespId := s.nextRespId + 1 },
       [.statsUpdated]) := by
    simp [submitVote, hcond, hv, voteInsert, insertResponse]
  have hbred : bulkSubmit s [⟨some qid, some oid⟩] =
      (.ok,
       { s with
          responses := s.responses ++ [⟨s.nextRespId, qid, oid, none⟩],
          nextRespId := s.nextRespId + 1 },
       [.statsUpdated]) := by
    simp [bulkSubmit, insertAnswer, numFalsy, hq0, ho0]
  refine ⟨by rw [hvred], by rw [hvred], ?_, by rw [hbred], by rw [hbred], ?_⟩
  · intro qsel
    rw [hvred]
    exact stats_append_fresh s
      { s with
          responses := s.responses ++ [⟨s.nextRespId, qid, oid, some (jsTrim dRaw)⟩],
          nextRespId := s.nextRespId + 1 }
      ⟨s.nextRespId, qid, oid, some (jsTrim dRaw)⟩ rfl rfl rfl hfresh qsel
  · intro qsel
    rw [hbred]
    exact stats_append_fresh s
      { s with
          responses := s.responses ++ [⟨s.nextRespId, qid, oid, none⟩],
          nextRespId := s.nextRespId + 1 }
      ⟨s.nextRespId, qid, oid, none⟩ rfl rfl rfl hfresh qsel

theorem ghost_votes_witness :
    (submitVote init (some 99) (some 99) "ghost").1 = .ok ∧
    (submitVote init (some 99) (some 99) "ghost").2.1.responses =
      [⟨1, 99, 99, some "ghost"⟩] ∧
    stats (submitVote init (some 99) (some 99) "ghost").2.1 none =
      stats init none ∧
    (bulkSubmit init [⟨some 99, some 99⟩]).1 = .ok ∧
    stats (bulkSubmit init [⟨some 99, some 99⟩]).2.1 (some 1) =
      stats init (some 1) := by
  have h := ghost_votes init 99 99 "ghost" (by decide) (by decide) (by decide)
    (by decide) (by decide)
  refine ⟨h.1, ?_, h.2.2.1 none, h.2.2.2.1, h.2.2.2.2.2 (some 1)⟩
  rw [h.2.1]
  decide

end Quiz
